import Mathlib

/-!
Shallow embedding of the trading-bot core (TypeScript sources under `src/`):
the indicator library (`src/indicators/index.ts`), the two strategies
(`src/strategies/sma-crossover.ts`, `src/strategies/rsi-strategy.ts`), the
risk manager (`RiskManager` in the same file as the SMA strategy), the
portfolio ledger (`src/portfolio/manager.ts`) and the trade executor
(`TradeExecutor`).  JavaScript `number` is modelled as `Rat`; JS `Map` keyed
by symbol is modelled as a `List Position` with at most one entry per symbol
(first-match lookup, in-place replace, delete — the exact observable
behaviour of `Map.get/set/delete` when keys are unique).
-/

namespace TB

/-! ## Data model (`src/portfolio/manager.ts`, `src/strategies/sma-crossover.ts`) -/

/-- `'BUY' | 'SELL' | 'HOLD'` — used both for `TradingSignal.action` and
(restricted to BUY/SELL by convention, as in the TS union type) `Trade.side`. -/
inductive Action
  | BUY
  | SELL
  | HOLD
deriving DecidableEq, Repr

/-- `'LONG' | 'SHORT'` — `Position.side`. -/
inductive Side
  | LONG
  | SHORT
deriving DecidableEq, Repr

/-- `TradingSignal` from `src/strategies/sma-crossover.ts`. -/
structure TradingSignal where
  action : Action
  confidence : Rat
  timestamp : Int
deriving DecidableEq, Repr

/-- `Position` from `src/portfolio/manager.ts`. -/
structure Position where
  symbol : String
  quantity : Rat
  avgPrice : Rat
  currentPrice : Rat
  unrealizedPnL : Rat
  side : Side
deriving DecidableEq, Repr

/-- `Trade` from `src/portfolio/manager.ts`; `fee?` is optional. -/
structure Trade where
  id : String
  symbol : String
  side : Action
  quantity : Rat
  price : Rat
  timestamp : Int
  fee : Option Rat
deriving DecidableEq, Repr

/-! ## Indicator library (`src/indicators/index.ts`) -/

/-- One output value of `calculateSMA`: mean of `prices.slice(i - period + 1, i + 1)`,
i.e. the `period` entries ending at index `i`. -/
def smaAt (prices : List Rat) (period i : Nat) : Rat :=
  (((prices.drop (i + 1 - period)).take period).sum) / (period : Rat)

/-- `TechnicalIndicators.calculateSMA`: the loop runs `i = period-1 … prices.length-1`.
Defined for `period ≥ 1` (the TS code is only ever called with positive periods;
with `period = 0` the JS loop produces NaN entries, outside the rational model). -/
def calculateSMA (prices : List Rat) (period : Nat) : List Rat :=
  (List.range' (period - 1) (prices.length + 1 - period)).map (smaAt prices period)

/-- The recurrence loop of `calculateEMA`: given the multiplier `m` and the
previous EMA value `prev`, fold over the remaining prices producing
`ema[i] = (prices[i] - ema[i-1]) * m + ema[i-1]`. -/
def emaRec (m : Rat) (prev : Rat) : List Rat → List Rat
  | [] => []
  | p :: ps => ((p - prev) * m + prev) :: emaRec m ((p - prev) * m + prev) ps

/-- `TechnicalIndicators.calculateEMA`.  The TS body unconditionally executes
`ema[0] = prices[0]` before the loop; on an EMPTY input this assigns
`undefined` to index 0, so the returned JS array is `[undefined]` of length 1.
That is modelled as `[none]`; on a non-empty input every entry is a real
number (`some _`). -/
def calculateEMA (prices : List Rat) (period : Nat) : List (Option Rat) :=
  match prices with
  | [] => [none]
  | p :: ps => (p :: emaRec (2 / ((period : Rat) + 1)) p ps).map some

/-- The consecutive differences `prices[i] - prices[i-1]` (`i = 1 …`). -/
def priceChanges (prices : List Rat) : List Rat :=
  List.zipWith (fun b a => b - a) prices.tail prices

/-- One output value of `calculateRSI`: average gain / average loss over the
`period` changes ending at change-index `i`, then `100` if the average loss is
exactly `0`, else `100 - 100/(1 + RS)`. -/
def rsiAt (gains losses : List Rat) (period i : Nat) : Rat :=
  let avgGain := (((gains.drop (i + 1 - period)).take period).sum) / (period : Rat)
  let avgLoss := (((losses.drop (i + 1 - period)).take period).sum) / (period : Rat)
  if avgLoss = 0 then 100 else 100 - 100 / (1 + avgGain / avgLoss)

/-- `TechnicalIndicators.calculateRSI`: gains/losses from consecutive changes,
then the loop `i = period-1 … gains.length-1`. -/
def calculateRSI (prices : List Rat) (period : Nat) : List Rat :=
  let changes := priceChanges prices
  let gains := changes.map (fun c => if 0 < c then c else 0)
  let losses := changes.map (fun c => if c < 0 then -c else 0)
  (List.range' (period - 1) (gains.length + 1 - period)).map (rsiAt gains losses period)

/-! ## Portfolio ledger (`src/portfolio/manager.ts`) -/

/-- The `PortfolioManager` fields. -/
structure PortfolioManager where
  positions : List Position
  trades : List Trade
  initialBalance : Rat
  availableBalance : Rat
deriving DecidableEq, Repr

/-- `new PortfolioManager(initialBalance)`. -/
def PortfolioManager.fresh (initialBalance : Rat) : PortfolioManager :=
  ⟨[], [], initialBalance, initialBalance⟩

/-- `this.positions.get(symbol)` — first entry with the given symbol. -/
def getPosition (ps : List Position) (symbol : String) : Option Position :=
  ps.find? (fun q => q.symbol = symbol)

/-- `this.positions.set(p.symbol, p)` — replace the (unique) entry with that
key, or append if absent; observably identical to `Map.set`. -/
def setPosition : List Position → Position → List Position
  | [], p => [p]
  | q :: qs, p => if q.symbol = p.symbol then p :: qs else q :: setPosition qs p

/-- `this.positions.delete(symbol)` — remove the (unique) entry with that key. -/
def deletePosition : List Position → String → List Position
  | [], _ => []
  | q :: qs, symbol => if q.symbol = symbol then qs else q :: deletePosition qs symbol

/-- `PortfolioManager.updatePosition(trade)` acting on the position map.
On a BUY against an existing position the code recomputes the weighted
average price and never deletes (even when the new quantity is exactly 0 —
there the JS division `…/totalQuantity` yields NaN, modelled by `Rat`
division-by-zero); only the SELL branch checks for quantity 0 and deletes. -/
def updatePosition (ps : List Position) (trade : Trade) : List Position :=
  match getPosition ps trade.symbol with
  | none =>
      setPosition ps
        { symbol := trade.symbol
          quantity := if trade.side = Action.BUY then trade.quantity else -trade.quantity
          avgPrice := trade.price
          currentPrice := trade.price
          unrealizedPnL := 0
          side := if trade.side = Action.BUY then Side.LONG else Side.SHORT }
  | some existing =>
      if trade.side = Action.BUY then
        setPosition ps
          { existing with
            avgPrice := ((existing.avgPrice * existing.quantity) +
              (trade.price * trade.quantity)) / (existing.quantity + trade.quantity)
            quantity := existing.quantity + trade.quantity
            side := if 0 < existing.quantity + trade.quantity then Side.LONG else Side.SHORT }
      else
        if existing.quantity - trade.quantity = 0 then
          deletePosition ps trade.symbol
        else
          setPosition ps
            { existing with
              quantity := existing.quantity - trade.quantity
              side := if 0 < existing.quantity - trade.quantity then Side.LONG else Side.SHORT }

/-- `PortfolioManager.addTrade(trade)`: push to history, update the position,
then adjust the balance by `-(q·p + fee)` for BUY and `+(q·p - fee)` for SELL
(`fee = trade.fee || 0`). -/
def addTrade (pm : PortfolioManager) (trade : Trade) : PortfolioManager :=
  let fee := trade.fee.getD 0
  { pm with
    trades := pm.trades ++ [trade]
    positions := updatePosition pm.positions trade
    availableBalance :=
      if trade.side = Action.BUY then
        pm.availableBalance - (trade.quantity * trade.price + fee)
      else
        pm.availableBalance + (trade.quantity * trade.price - fee) }

/-- `PortfolioManager.getTotalValue()`. -/
def getTotalValue (pm : PortfolioManager) : Rat :=
  pm.availableBalance + (pm.positions.map (fun p => p.currentPrice * p.quantity)).sum

/-- `PortfolioManager.canAfford(symbol, quantity, price)` (symbol is unused
by the TS body): `availableBalance >= cost + cost * 0.01`. -/
def canAfford (pm : PortfolioManager) (quantity price : Rat) : Bool :=
  decide (quantity * price + (quantity * price) * (1 / 100) ≤ pm.availableBalance)

/-! ## Risk manager (`RiskManager`, in the file holding the SMA strategy) -/

/-- `RiskLimits`. -/
structure RiskLimits where
  maxPositionSize : Rat
  maxDailyLoss : Rat
  stopLossPercent : Rat
  takeProfitPercent : Rat
  maxOpenPositions : Nat
deriving DecidableEq, Repr

/-- `RiskAssessment`.  The formatted reason strings are abstracted to fixed
messages (the TS code interpolates amounts into them; no claim depends on
the text). -/
structure RiskAssessment where
  allowed : Bool
  reason : Option String
  recommendedSize : Option Rat
deriving DecidableEq, Repr

/-- `RiskManager.assessTradeRisk(symbol, side, quantity, price, portfolio)`.
The wall-clock lazy daily reset (`resetDailyTracking`, driven by `Date.now`)
is outside the model; `dailyPnL` is the tracker's value after that reset.
The four gates run in source order and short-circuit. -/
def assessTradeRisk (limits : RiskLimits) (dailyPnL : Rat) (side : Action)
    (quantity price : Rat) (portfolio : PortfolioManager) : RiskAssessment :=
  let totalValue := getTotalValue portfolio
  if dailyPnL ≤ -(totalValue * (limits.maxDailyLoss / 100)) then
    ⟨false, some "Daily loss limit reached", none⟩
  else if limits.maxPositionSize < ((quantity * price) / totalValue) * 100 then
    ⟨false, some "Position size too large",
      some ((totalValue * (limits.maxPositionSize / 100)) / price)⟩
  else if limits.maxOpenPositions ≤ portfolio.positions.length then
    ⟨false, some "Maximum open positions reached", none⟩
  else if side = Action.BUY ∧ ¬ (canAfford portfolio quantity price = true) then
    ⟨false, some "Insufficient balance for trade", none⟩
  else
    ⟨true, none, none⟩

/-- `RiskManager.checkStopLoss(position)`: adverse move from `avgPrice` to
`currentPrice` as a percentage of `avgPrice`, direction set by the side,
compared with `>=` against `stopLossPercent`. -/
def checkStopLoss (limits : RiskLimits) (position : Position) : Bool :=
  match position.side with
  | Side.LONG =>
      decide (limits.stopLossPercent ≤
        ((position.avgPrice - position.currentPrice) / position.avgPrice) * 100)
  | Side.SHORT =>
      decide (limits.stopLossPercent ≤
        ((position.currentPrice - position.avgPrice) / position.avgPrice) * 100)

/-- `RiskManager.checkTakeProfit(position)` — the favorable-move mirror. -/
def checkTakeProfit (limits : RiskLimits) (position : Position) : Bool :=
  match position.side with
  | Side.LONG =>
      decide (limits.takeProfitPercent ≤
        ((position.currentPrice - position.avgPrice) / position.avgPrice) * 100)
  | Side.SHORT =>
      decide (limits.takeProfitPercent ≤
        ((position.avgPrice - position.currentPrice) / position.avgPrice) * 100)

/-! ## Strategies -/

/-- `MarketData` (`src/types/index.ts`). -/
structure MarketData where
  price : Rat
  timestamp : Int
deriving DecidableEq, Repr

/-- The shared window update: `push`, then `slice(-maxHistorySize)` when the
length exceeds the cap (keep the most recent `maxHistorySize` entries). -/
def pushPrice (hist : List Rat) (maxHistorySize : Nat) (price : Rat) : List Rat :=
  if maxHistorySize < (hist ++ [price]).length then
    (hist ++ [price]).drop ((hist ++ [price]).length - maxHistorySize)
  else hist ++ [price]

/-- `SMACrossoverStrategy` state (`maxHistorySize` is fixed to 200 by the
class but kept as a field, as in the source). -/
structure SMACrossoverStrategy where
  priceHistory : List Rat
  fastPeriod : Nat
  slowPeriod : Nat
  maxHistorySize : Nat
deriving DecidableEq, Repr

/-- `new SMACrossoverStrategy(fastPeriod, slowPeriod)`. -/
def SMACrossoverStrategy.fresh (fastPeriod slowPeriod : Nat) : SMACrossoverStrategy :=
  ⟨[], fastPeriod, slowPeriod, 200⟩

/-- The fast SMA series over the current window. -/
def fastSMAof (s : SMACrossoverStrategy) : List Rat :=
  calculateSMA s.priceHistory s.fastPeriod

/-- The slow SMA series over the current window. -/
def slowSMAof (s : SMACrossoverStrategy) : List Rat :=
  calculateSMA s.priceHistory s.slowPeriod

/-- `fastSMA[fastSMA.length - 1]`. -/
def currentFast (s : SMACrossoverStrategy) : Rat :=
  (fastSMAof s).getD ((fastSMAof s).length - 1) 0

/-- `fastSMA[fastSMA.length - 2]`. -/
def previousFast (s : SMACrossoverStrategy) : Rat :=
  (fastSMAof s).getD ((fastSMAof s).length - 2) 0

/-- `slowSMA[slowSMA.length - 1]`. -/
def currentSlow (s : SMACrossoverStrategy) : Rat :=
  (slowSMAof s).getD ((slowSMAof s).length - 1) 0

/-- `slowSMA[slowSMA.length - 2]`. -/
def previousSlow (s : SMACrossoverStrategy) : Rat :=
  (slowSMAof s).getD ((slowSMAof s).length - 2) 0

/-- `SMACrossoverStrategy.generateSignal(timestamp)`.  The strategy state is
unchanged (the class keeps no latch); returned with the signal for uniformity. -/
def SMACrossoverStrategy.generateSignal (s : SMACrossoverStrategy) (timestamp : Int) :
    SMACrossoverStrategy × TradingSignal :=
  if (fastSMAof s).length < 2 ∨ (slowSMAof s).length < 2 then
    (s, ⟨Action.HOLD, 0, timestamp⟩)
  else if previousFast s ≤ previousSlow s ∧ currentSlow s < currentFast s then
    (s, ⟨Action.BUY, min (((currentFast s - currentSlow s) / currentSlow s) * 100) 1, timestamp⟩)
  else if previousSlow s ≤ previousFast s ∧ currentFast s < currentSlow s then
    (s, ⟨Action.SELL, min (((currentSlow s - currentFast s) / currentFast s) * 100) 1, timestamp⟩)
  else
    (s, ⟨Action.HOLD, 0, timestamp⟩)

/-- `SMACrossoverStrategy.addPriceData(marketData)`: window update,
warm-up guard (`length < slowPeriod` returns HOLD/0), else `generateSignal`. -/
def SMACrossoverStrategy.addPriceData (s : SMACrossoverStrategy) (md : MarketData) :
    SMACrossoverStrategy × TradingSignal :=
  let s1 : SMACrossoverStrategy :=
    { s with priceHistory := pushPrice s.priceHistory s.maxHistorySize md.price }
  if s1.priceHistory.length < s1.slowPeriod then
    (s1, ⟨Action.HOLD, 0, md.timestamp⟩)
  else
    s1.generateSignal md.timestamp

/-- `RSIStrategy` state (`maxHistorySize` is fixed to 100 by the class). -/
structure RSIStrategy where
  priceHistory : List Rat
  period : Nat
  oversoldLevel : Rat
  overboughtLevel : Rat
  maxHistorySize : Nat
  lastSignal : Action
deriving DecidableEq, Repr

/-- `new RSIStrategy(period, oversoldLevel, overboughtLevel)`. -/
def RSIStrategy.fresh (period : Nat) (oversoldLevel overboughtLevel : Rat) : RSIStrategy :=
  ⟨[], period, oversoldLevel, overboughtLevel, 100, Action.HOLD⟩

/-- The RSI series over the current window. -/
def rsiValuesOf (s : RSIStrategy) : List Rat :=
  calculateRSI s.priceHistory s.period

/-- `rsiValues[rsiValues.length - 1]`. -/
def currentRSIof (s : RSIStrategy) : Rat :=
  (rsiValuesOf s).getD ((rsiValuesOf s).length - 1) 0

/-- `rsiValues[rsiValues.length - 2]`. -/
def previousRSIof (s : RSIStrategy) : Rat :=
  (rsiValuesOf s).getD ((rsiValuesOf s).length - 2) 0

/-- `RSIStrategy.generateSignal(timestamp)`: BUY when RSI crosses down through
the oversold level with the latch not already BUY, SELL mirrored through the
overbought level, and a neutral-band reset of the latch to HOLD (the source
guards the reset with `lastSignal !== 'HOLD'` only to log; the resulting state
is the same). -/
def RSIStrategy.generateSignal (s : RSIStrategy) (timestamp : Int) :
    RSIStrategy × TradingSignal :=
  if (rsiValuesOf s).length < 2 then
    (s, ⟨Action.HOLD, 0, timestamp⟩)
  else if currentRSIof s ≤ s.oversoldLevel ∧ s.oversoldLevel < previousRSIof s ∧
      s.lastSignal ≠ Action.BUY then
    ({ s with lastSignal := Action.BUY },
      ⟨Action.BUY, min ((s.oversoldLevel - currentRSIof s) / s.oversoldLevel) 1, timestamp⟩)
  else if s.overboughtLevel ≤ currentRSIof s ∧ previousRSIof s < s.overboughtLevel ∧
      s.lastSignal ≠ Action.SELL then
    ({ s with lastSignal := Action.SELL },
      ⟨Action.SELL, min ((currentRSIof s - s.overboughtLevel) / (100 - s.overboughtLevel)) 1,
        timestamp⟩)
  else if s.oversoldLevel < currentRSIof s ∧ currentRSIof s < s.overboughtLevel then
    ({ s with lastSignal := Action.HOLD }, ⟨Action.HOLD, 0, timestamp⟩)
  else
    (s, ⟨Action.HOLD, 0, timestamp⟩)

/-- `RSIStrategy.addPriceData(marketData)`: window update, warm-up guard
(`length < period + 1` returns HOLD/0), else `generateSignal`. -/
def RSIStrategy.addPriceData (s : RSIStrategy) (md : MarketData) :
    RSIStrategy × TradingSignal :=
  let s1 : RSIStrategy :=
    { s with priceHistory := pushPrice s.priceHistory s.maxHistorySize md.price }
  if s1.priceHistory.length < s1.period + 1 then
    (s1, ⟨Action.HOLD, 0, md.timestamp⟩)
  else
    s1.generateSignal md.timestamp

/-- `RSIStrategy.getCurrentRSI()`: `null` below the warm-up threshold, else the
last RSI value when the series is non-empty. -/
def getCurrentRSI (s : RSIStrategy) : Option Rat :=
  if s.priceHistory.length < s.period + 1 then none
  else if 0 < (rsiValuesOf s).length then some (currentRSIof s) else none

/-! ## Trade executor (`TradeExecutor`) -/

/-- Exchange order status (`'NEW' | 'FILLED' | 'CANCELLED'`). -/
inductive OrderStatus
  | NEW
  | FILLED
  | CANCELLED
deriving DecidableEq, Repr

/-- The order object returned by `exchange.placeOrder` (`price` is optional). -/
structure Order where
  id : String
  status : OrderStatus
  price : Option Rat
deriving DecidableEq, Repr

/-- `ExecutionResult`. -/
structure ExecutionResult where
  success : Bool
  trade : Option Trade
  reason : Option String
deriving DecidableEq, Repr

/-- `TradeExecutor.calculatePositionSize(signal, price)`:
`(availableBalance * 0.1) * (0.5 + confidence * 0.5) / price`. -/
def calculatePositionSize (pm : PortfolioManager) (signal : TradingSignal)
    (price : Rat) : Rat :=
  ((pm.availableBalance * (1 / 10)) * (1 / 2 + signal.confidence * (1 / 2))) / price

/-- `TradeExecutor.calculateFee(quantity, price)`: 0.1% of notional. -/
def calculateFee (quantity price : Rat) : Rat :=
  (quantity * price) * (1 / 1000)

/-- `TradeExecutor.simulateTrade`: always succeeds and applies the trade to
the ledger (logging is observability only). -/
def simulateTrade (pm : PortfolioManager) (trade : Trade) :
    ExecutionResult × PortfolioManager :=
  (⟨true, some trade, none⟩, addTrade pm trade)

/-- `TradeExecutor.executeLiveTrade`, with the exchange interaction made
explicit: `orderResult` is `Except.error _` when `placeOrder` throws, else the
returned order.  Only a FILLED order is applied to the ledger, after
`trade.price = order.price || trade.price` (JS `||`: an absent OR zero
`order.price` keeps the quoted price) and `trade.id = order.id`. -/
def executeLiveTrade (pm : PortfolioManager) (trade : Trade)
    (orderResult : Except String Order) : ExecutionResult × PortfolioManager :=
  match orderResult with
  | Except.error e => (⟨false, none, some ("Execution failed: " ++ e)⟩, pm)
  | Except.ok order =>
      if order.status = OrderStatus.FILLED then
        let filled : Trade :=
          { trade with
            price := match order.price with
              | none => trade.price
              | some p => if p = 0 then trade.price else p
            id := order.id }
        (⟨true, some filled, none⟩, addTrade pm filled)
      else
        (⟨false, none, some "Order not filled"⟩, pm)

/-- `TradeExecutor.executeSignal(signal, symbol, currentPrice, strategy)`.
`newId` stands for the generated uuid, `dailyPnL` for the risk manager's
tracker, and `orderResult` for the live exchange interaction (unused on the
dry-run path).  The trade quantity is `riskAssessment.recommendedSize ||
positionSize` (JS `||`: absent OR zero falls back to the candidate size), and
the fee is computed from `positionSize`, exactly as in the source. -/
def executeSignal (limits : RiskLimits) (dailyPnL : Rat) (pm : PortfolioManager)
    (signal : TradingSignal) (symbol : String) (currentPrice : Rat) (newId : String)
    (isDryRun : Bool) (orderResult : Except String Order) :
    ExecutionResult × PortfolioManager :=
  if signal.action = Action.HOLD then
    (⟨false, none, some "No action required"⟩, pm)
  else
    let positionSize := calculatePositionSize pm signal currentPrice
    let assessment := assessTradeRisk limits dailyPnL signal.action positionSize currentPrice pm
    if assessment.allowed = false then
      (⟨false, none, assessment.reason⟩, pm)
    else
      let trade : Trade :=
        { id := newId
          symbol := symbol
          side := signal.action
          quantity := match assessment.recommendedSize with
            | none => positionSize
            | some r => if r = 0 then positionSize else r
          price := currentPrice
          timestamp := signal.timestamp
          fee := some (calculateFee positionSize currentPrice) }
      if isDryRun then simulateTrade pm trade
      else executeLiveTrade pm trade orderResult

/-- The trace of a sequence of `RSIStrategy.addPriceData` calls: for each
incoming sample, the emitted signal together with the strategy state right
after the call. -/
def traceRSI (s : RSIStrategy) : List MarketData → List (TradingSignal × RSIStrategy)
  | [] => []
  | md :: rest => ((s.addPriceData md).2, (s.addPriceData md).1) ::
      traceRSI (s.addPriceData md).1 rest

/-! ## Helper lemmas on the position map -/

attribute [local semireducible] Rat.add Rat.sub Rat.mul Rat.inv Rat.ofScientific

theorem getPosition_setPosition_self (ps : List Position) (p : Position) :
    getPosition (setPosition ps p) p.symbol = some p := by
  induction ps with
  | nil => simp [setPosition, getPosition]
  | cons q qs ih =>
      by_cases h : q.symbol = p.symbol
      · simp [setPosition, h, getPosition]
      · simpa [setPosition, h, getPosition] using ih

theorem getPosition_eq_none_iff (ps : List Position) (symbol : String) :
    getPosition ps symbol = none ↔ ∀ p ∈ ps, p.symbol ≠ symbol := by
  simp [getPosition, List.find?_eq_none]

theorem symbol_of_getPosition {ps : List Position} {symbol : String} {p : Position}
    (h : getPosition ps symbol = some p) : p.symbol = symbol := by
  have := List.find?_some h
  simpa using this

theorem getPosition_deletePosition_self (ps : List Position) (symbol : String)
    (h : (ps.map Position.symbol).Nodup) :
    getPosition (deletePosition ps symbol) symbol = none := by
  induction ps with
  | nil => simp [deletePosition, getPosition]
  | cons q qs ih =>
      rw [List.map_cons, List.nodup_cons] at h
      by_cases hq : q.symbol = symbol
      · rw [deletePosition, if_pos hq]
        rw [getPosition_eq_none_iff]
        intro p hp hps
        exact h.1 (hq ▸ hps ▸ List.mem_map_of_mem Position.symbol hp)
      · rw [deletePosition, if_neg hq]
        simpa [getPosition, hq] using ih h.2

/-! ## Claim theorems -/

/-- C1 (counterexample): the claim says a position whose quantity reaches
exactly 0 is removed for BOTH closing directions.  On a fresh portfolio,
SELL 3 @ 10 opens a SHORT of −3; the subsequent BUY 3 @ 10 brings the
quantity to exactly 0, yet the position is still in the open-position map
(the BUY branch of `updatePosition` never deletes). -/
theorem C1_buy_close_short_not_removed :
    (getPosition (addTrade (addTrade (PortfolioManager.fresh 1000)
        ⟨"t1", "X", Action.SELL, 3, 10, 0, none⟩)
        ⟨"t2", "X", Action.BUY, 3, 10, 1, none⟩).positions "X").isSome = true := by
  decide

/-- C1 (amended): a trade that brings an existing position's quantity to
exactly 0 removes the position only when it is a SELL; a BUY that brings the
quantity to exactly 0 (closing a SHORT) leaves a zero-quantity position in
the open-position map.  The Nodup hypothesis is the `Map` key-uniqueness
invariant of `PortfolioManager.positions`. -/
theorem C1_zero_quantity_removal :
    ∀ (pm : PortfolioManager) (symbol : String) (pos : Position) (t : Trade),
      (pm.positions.map Position.symbol).Nodup →
      getPosition pm.positions symbol = some pos →
      t.symbol = symbol →
      ((t.side = Action.SELL → pos.quantity - t.quantity = 0 →
          getPosition (addTrade pm t).positions symbol = none) ∧
        (t.side = Action.BUY → pos.quantity + t.quantity = 0 →
          ∃ p2, getPosition (addTrade pm t).positions symbol = some p2 ∧
            p2.quantity = 0)) := by
  intro pm symbol pos t hnd hget hsym
  have hpos : pos.symbol = symbol := symbol_of_getPosition hget
  constructor
  · intro hside hzero
    show getPosition (updatePosition pm.positions t) symbol = none
    rw [updatePosition, hsym, hget]
    simp only [hside]
    rw [if_neg (by decide), if_pos hzero]
    exact getPosition_deletePosition_self pm.positions symbol hnd
  · intro hside hzero
    show ∃ p2, getPosition (updatePosition pm.positions t) symbol = some p2 ∧ p2.quantity = 0
    rw [updatePosition, hsym, hget]
    simp only [hside, if_pos rfl]
    refine ⟨{ pos with
        avgPrice := ((pos.avgPrice * pos.quantity) + (t.price * t.quantity)) /
          (pos.quantity + t.quantity)
        quantity := pos.quantity + t.quantity
        side := if 0 < pos.quantity + t.quantity then Side.LONG else Side.SHORT }, ?_, hzero⟩
    have := getPosition_setPosition_self pm.positions
      { pos with
        avgPrice := ((pos.avgPrice * pos.quantity) + (t.price * t.quantity)) /
          (pos.quantity + t.quantity)
        quantity := pos.quantity + t.quantity
        side := if 0 < pos.quantity + t.quantity then Side.LONG else Side.SHORT }
    simpa [hpos] using this

/-- C1 witness: instantiates the amended theorem at a LONG position closed by
a SELL (removed) and at a SHORT position closed by a BUY (kept at quantity 0). -/
theorem C1_zero_quantity_removal_witness :
    getPosition (addTrade ⟨[⟨"X", 3, 10, 10, 0, Side.LONG⟩], [], 1000, 1000⟩
        ⟨"s1", "X", Action.SELL, 3, 12, 5, none⟩).positions "X" = none ∧
      ∃ p2, getPosition (addTrade ⟨[⟨"X", -3, 10, 10, 0, Side.SHORT⟩], [], 1000, 1000⟩
        ⟨"b1", "X", Action.BUY, 3, 12, 5, none⟩).positions "X" = some p2 ∧
        p2.quantity = 0 :=
  ⟨(C1_zero_quantity_removal ⟨[⟨"X", 3, 10, 10, 0, Side.LONG⟩], [], 1000, 1000⟩ "X"
      ⟨"X", 3, 10, 10, 0, Side.LONG⟩ ⟨"s1", "X", Action.SELL, 3, 12, 5, none⟩
      (by decide) (by decide) rfl).1 rfl (by decide),
    (C1_zero_quantity_removal ⟨[⟨"X", -3, 10, 10, 0, Side.SHORT⟩], [], 1000, 1000⟩ "X"
      ⟨"X", -3, 10, 10, 0, Side.SHORT⟩ ⟨"b1", "X", Action.BUY, 3, 12, 5, none⟩
      (by decide) (by decide) rfl).2 rfl (by decide)⟩

/-- C2: in live mode, whenever the exchange order's status is anything other
than FILLED — including the case where `placeOrder` throws, modelled by
`Except.error` — `executeSignal` returns a failure result and the portfolio
ledger is left unchanged (no trade appended, no position touched, balance
untouched: the whole `PortfolioManager` state is equal). -/
theorem C2_live_failure_leaves_ledger :
    ∀ (limits : RiskLimits) (dailyPnL : Rat) (pm : PortfolioManager)
      (signal : TradingSignal) (symbol : String) (price : Rat) (newId : String)
      (r : Except String Order),
      (∀ o, r = Except.ok o → o.status ≠ OrderStatus.FILLED) →
      (executeSignal limits dailyPnL pm signal symbol price newId false r).1.success = false ∧
        (executeSignal limits dailyPnL pm signal symbol price newId false r).2 = pm := by
  intro limits dailyPnL pm signal symbol price newId r hr
  simp only [executeSignal, Bool.false_eq_true, if_false]
  split
  · exact ⟨rfl, rfl⟩
  · split
    · exact ⟨rfl, rfl⟩
    · cases r with
      | error e => exact ⟨rfl, rfl⟩
      | ok o =>
          rw [executeLiveTrade]
          rw [if_neg (by simpa using hr o rfl)]
          exact ⟨rfl, rfl⟩

/-- C2 witness: a concrete CANCELLED order on a portfolio with an otherwise
approvable BUY signal. -/
theorem C2_live_failure_leaves_ledger_witness :
    (executeSignal ⟨20, 5, 3, 6, 5⟩ 0 (PortfolioManager.fresh 1000) ⟨Action.BUY, 1, 0⟩
        "X" 100 "T1" false (Except.ok ⟨"o1", OrderStatus.CANCELLED, none⟩)).1.success = false ∧
      (executeSignal ⟨20, 5, 3, 6, 5⟩ 0 (PortfolioManager.fresh 1000) ⟨Action.BUY, 1, 0⟩
        "X" 100 "T1" false (Except.ok ⟨"o1", OrderStatus.CANCELLED, none⟩)).2 =
        PortfolioManager.fresh 1000 :=
  C2_live_failure_leaves_ledger ⟨20, 5, 3, 6, 5⟩ 0 (PortfolioManager.fresh 1000)
    ⟨Action.BUY, 1, 0⟩ "X" 100 "T1" (Except.ok ⟨"o1", OrderStatus.CANCELLED, none⟩)
    (fun o h => by cases h; decide)

/-- C6: below the minimum window (`slowPeriod` samples for SMA-Crossover,
`period + 1` samples for RSI-Threshold, measured on the post-push bounded
window), `addPriceData` returns HOLD with confidence 0. -/
theorem C6_warmup_returns_hold :
    ∀ (s : SMACrossoverStrategy) (t : RSIStrategy) (md1 md2 : MarketData),
      (pushPrice s.priceHistory s.maxHistorySize md1.price).length < s.slowPeriod →
      (pushPrice t.priceHistory t.maxHistorySize md2.price).length < t.period + 1 →
      (s.addPriceData md1).2 = ⟨Action.HOLD, 0, md1.timestamp⟩ ∧
        (t.addPriceData md2).2 = ⟨Action.HOLD, 0, md2.timestamp⟩ := by
  intro s t md1 md2 h1 h2
  constructor
  · rw [SMACrossoverStrategy.addPriceData]
    simp only [if_pos h1]
  · rw [RSIStrategy.addPriceData]
    simp only [if_pos h2]

/-- C6 witness: first sample into fresh strategies (window length 1 is below
both minimum windows). -/
theorem C6_warmup_returns_hold_witness :
    ((SMACrossoverStrategy.fresh 2 3).addPriceData ⟨1, 0⟩).2 = ⟨Action.HOLD, 0, 0⟩ ∧
      ((RSIStrategy.fresh 14 30 70).addPriceData ⟨1, 0⟩).2 = ⟨Action.HOLD, 0, 0⟩ :=
  C6_warmup_returns_hold (SMACrossoverStrategy.fresh 2 3) (RSIStrategy.fresh 14 30 70)
    ⟨1, 0⟩ ⟨1, 0⟩ (by decide) (by decide)

/-- C8: two same-direction BUYs of (q1, p1) and (q2, p2) on a fresh symbol
leave a position whose average price is exactly (q1·p1 + q2·p2)/(q1 + q2)
and whose quantity is q1 + q2. -/
theorem C8_two_buys_weighted_average :
    ∀ (pm : PortfolioManager) (symbol id1 id2 : String) (q1 p1 q2 p2 : Rat)
      (ts1 ts2 : Int) (f1 f2 : Option Rat),
      getPosition pm.positions symbol = none →
      q1 + q2 ≠ 0 →
      ∃ pos,
        getPosition (addTrade (addTrade pm ⟨id1, symbol, Action.BUY, q1, p1, ts1, f1⟩)
            ⟨id2, symbol, Action.BUY, q2, p2, ts2, f2⟩).positions symbol = some pos ∧
          pos.avgPrice = (q1 * p1 + q2 * p2) / (q1 + q2) ∧
          pos.quantity = q1 + q2 := by
  intro pm symbol id1 id2 q1 p1 q2 p2 ts1 ts2 f1 f2 hnone hs
  have h1 : getPosition (addTrade pm ⟨id1, symbol, Action.BUY, q1, p1, ts1, f1⟩).positions
      symbol = some ⟨symbol, q1, p1, p1, 0, Side.LONG⟩ := by
    show getPosition (updatePosition pm.positions _) symbol = _
    rw [updatePosition, hnone]
    simpa using getPosition_setPosition_self pm.positions ⟨symbol, q1, p1, p1, 0, Side.LONG⟩
  refine ⟨⟨symbol, q1 + q2, ((p1 * q1) + (p2 * q2)) / (q1 + q2), p1, 0,
      if 0 < q1 + q2 then Side.LONG else Side.SHORT⟩, ?_, ?_, rfl⟩
  · show getPosition (updatePosition (addTrade pm _).positions _) symbol = _
    rw [updatePosition, h1]
    simp only [if_pos rfl]
    simpa using getPosition_setPosition_self (addTrade pm _).positions _
  · show ((p1 * q1) + (p2 * q2)) / (q1 + q2) = (q1 * p1 + q2 * p2) / (q1 + q2)
    ring_nf

/-- C8 witness: BUY 2 @ 5 then BUY 6 @ 9 on a fresh portfolio gives average
price (2·5 + 6·9)/8 = 8 and quantity 8. -/
theorem C8_two_buys_weighted_average_witness :
    ∃ pos,
      getPosition (addTrade (addTrade (PortfolioManager.fresh 1000)
          ⟨"a", "X", Action.BUY, 2, 5, 0, none⟩)
          ⟨"b", "X", Action.BUY, 6, 9, 1, none⟩).positions "X" = some pos ∧
        pos.avgPrice = ((2 : Rat) * 5 + 6 * 9) / (2 + 6) ∧
        pos.quantity = (2 : Rat) + 6 :=
  C8_two_buys_weighted_average (PortfolioManager.fresh 1000) "X" "a" "b" 2 5 6 9 0 1
    none none (by decide) (by decide)

/-- C9: `checkStopLoss` is a pure predicate that is true exactly when the
adverse move from `avgPrice` to `currentPrice`, as a percentage of `avgPrice`
in the direction given by the LONG/SHORT side, is ≥ `stopLossPercent`; with
avgPrice 100 and stopLossPercent 3, currentPrice 96.9 triggers it and 97.5
does not. -/
theorem C9_checkStopLoss_characterization :
    (∀ (limits : RiskLimits) (p : Position),
        checkStopLoss limits p = true ↔
          (match p.side with
            | Side.LONG =>
                limits.stopLossPercent ≤ ((p.avgPrice - p.currentPrice) / p.avgPrice) * 100
            | Side.SHORT =>
                limits.stopLossPercent ≤ ((p.currentPrice - p.avgPrice) / p.avgPrice) * 100)) ∧
      checkStopLoss ⟨20, 5, 3, 6, 5⟩ ⟨"X", 1, 100, 96.9, 0, Side.LONG⟩ = true ∧
      checkStopLoss ⟨20, 5, 3, 6, 5⟩ ⟨"X", 1, 100, 97.5, 0, Side.LONG⟩ = false := by
  refine ⟨?_, by decide, by decide⟩
  intro limits p
  cases hp : p.side <;> simp [checkStopLoss, hp]

/-- C3: a call that passes the daily-loss gate and fails the position-size
gate is rejected with `recommendedSize = (totalValue · maxPositionSize/100) /
price`, and that quantity itself passes the position-size check. -/
theorem C3_position_size_gate :
    ∀ (limits : RiskLimits) (dailyPnL : Rat) (side : Action) (quantity price : Rat)
      (pm : PortfolioManager),
      ¬ (dailyPnL ≤ -(getTotalValue pm * (limits.maxDailyLoss / 100))) →
      limits.maxPositionSize < ((quantity * price) / getTotalValue pm) * 100 →
      price ≠ 0 → getTotalValue pm ≠ 0 →
      (assessTradeRisk limits dailyPnL side quantity price pm).allowed = false ∧
        (assessTradeRisk limits dailyPnL side quantity price pm).recommendedSize =
          some ((getTotalValue pm * (limits.maxPositionSize / 100)) / price) ∧
        ∀ r, (assessTradeRisk limits dailyPnL side quantity price pm).recommendedSize = some r →
          ¬ (limits.maxPositionSize < ((r * price) / getTotalValue pm) * 100) := by
  intro limits dailyPnL side quantity price pm h1 h2 hp htv
  have hrw : assessTradeRisk limits dailyPnL side quantity price pm =
      ⟨false, some "Position size too large",
        some ((getTotalValue pm * (limits.maxPositionSize / 100)) / price)⟩ := by
    simp only [assessTradeRisk]
    rw [if_neg h1, if_pos h2]
  refine ⟨by rw [hrw], by rw [hrw], ?_⟩
  intro r hr
  rw [hrw] at hr
  have hr2 : r = (getTotalValue pm * (limits.maxPositionSize / 100)) / price := by
    simpa using hr.symm
  subst hr2
  have hpass : (((getTotalValue pm * (limits.maxPositionSize / 100)) / price * price) /
      getTotalValue pm) * 100 = limits.maxPositionSize := by
    field_simp
    ring
  rw [hpass]
  exact lt_irrefl _

/-- C3 witness: the spec scenario — fresh balance 1000 (total value 1000),
maxPositionSize 20%, a BUY of 3 units at price 100 (30% notional) is rejected
with recommendedSize = 2, and 2 units pass the position-size check. -/
theorem C3_position_size_gate_witness :
    (assessTradeRisk ⟨20, 5, 3, 6, 5⟩ 0 Action.BUY 3 100
        (PortfolioManager.fresh 1000)).allowed = false ∧
      (assessTradeRisk ⟨20, 5, 3, 6, 5⟩ 0 Action.BUY 3 100
        (PortfolioManager.fresh 1000)).recommendedSize = some 2 ∧
      ¬ ((20 : Rat) < (((2 : Rat) * 100) / getTotalValue (PortfolioManager.fresh 1000)) * 100) := by
  have h := C3_position_size_gate ⟨20, 5, 3, 6, 5⟩ 0 Action.BUY 3 100
    (PortfolioManager.fresh 1000) (by decide) (by decide) (by decide) (by decide)
  refine ⟨h.1, ?_, ?_⟩
  · rw [h.2.1]
    decide
  · exact h.2.2 2 (by rw [h.2.1]; decide)

/-- The length of the EMA recurrence output equals the number of remaining
prices. -/
theorem emaRec_length (m : Rat) :
    ∀ (rest : List Rat) (prev : Rat), (emaRec m prev rest).length = rest.length := by
  intro rest
  induction rest with
  | nil => intro prev; rfl
  | cons r rs ih => intro prev; simp [emaRec, ih]

/-- Entry `i` of the EMA recurrence satisfies the defining recurrence with
respect to the previous entry (`prev` at the head). -/
theorem emaRec_getD (m : Rat) :
    ∀ (rest : List Rat) (prev : Rat) (i : Nat), i < rest.length →
      (emaRec m prev rest).getD i 0 =
        (rest.getD i 0 -
            (match i with
              | 0 => prev
              | Nat.succ j => (emaRec m prev rest).getD j 0)) * m +
          (match i with
            | 0 => prev
            | Nat.succ j => (emaRec m prev rest).getD j 0) := by
  intro rest
  induction rest with
  | nil => intro prev i h; simp at h
  | cons r rs ih =>
      intro prev i h
      match i with
      | 0 => simp [emaRec]
      | Nat.succ j =>
          have hj : j < rs.length := by
            simpa using Nat.lt_of_succ_lt_succ (by simpa using h)
          have h2 := ih ((r - prev) * m + prev) j hj
          match j with
          | 0 => simpa [emaRec] using h2
          | Nat.succ k => simpa [emaRec] using h2

/-- C7 (counterexample): on the EMPTY price list the claim's length equation
fails — the TS body assigns `ema[0] = prices[0]` unconditionally, so
`calculateEMA([], period)` is a length-1 array holding `undefined` while the
input has length 0. -/
theorem C7_empty_input_length_mismatch :
    calculateEMA [] 12 = [none] ∧
      (calculateEMA ([] : List Rat) 12).length ≠ ([] : List Rat).length := by
  exact ⟨rfl, by decide⟩

/-- C7 (amended): for every NON-EMPTY price list, `calculateEMA` returns one
defined value per input price: same length as the input, seed `EMA[0] =
prices[0]`, and `EMA[i] = (prices[i] − EMA[i−1]) · 2/(period+1) + EMA[i−1]`
for `i ≥ 1`. -/
theorem C7_ema_shape :
    ∀ (prices : List Rat) (period : Nat), prices ≠ [] →
      ∃ l : List Rat, calculateEMA prices period = l.map some ∧
        l.length = prices.length ∧
        l.getD 0 0 = prices.getD 0 0 ∧
        ∀ i, i + 1 < prices.length →
          l.getD (i + 1) 0 =
            (prices.getD (i + 1) 0 - l.getD i 0) * (2 / ((period : Rat) + 1)) +
              l.getD i 0 := by
  intro prices period hne
  match prices with
  | [] => exact absurd rfl hne
  | p :: ps =>
      refine ⟨p :: emaRec (2 / ((period : Rat) + 1)) p ps, rfl, ?_, rfl, ?_⟩
      · simp [emaRec_length]
      · intro i hi
        have hi2 : i < ps.length := by simpa using Nat.lt_of_succ_lt_succ hi
        have h := emaRec_getD (2 / ((period : Rat) + 1)) ps p i hi2
        match i with
        | 0 => simpa using h
        | Nat.succ k => simpa using h

/-- C7 witness: the non-empty list [1, 2, 3] with period 3. -/
theorem C7_ema_shape_witness :
    ∃ l : List Rat, calculateEMA [1, 2, 3] 3 = l.map some ∧
      l.length = ([1, 2, 3] : List Rat).length ∧
      l.getD 0 0 = ([1, 2, 3] : List Rat).getD 0 0 ∧
      ∀ i, i + 1 < ([1, 2, 3] : List Rat).length →
        l.getD (i + 1) 0 =
          (([1, 2, 3] : List Rat).getD (i + 1) 0 - l.getD i 0) * (2 / ((3 : Nat) + 1 : Rat)) +
            l.getD i 0 :=
  C7_ema_shape [1, 2, 3] 3 (by decide)

/-- An assessment that comes back allowed never carries a `recommendedSize`
(only the position-size rejection sets one). -/
theorem assessTradeRisk_allowed_no_recommendation :
    ∀ (limits : RiskLimits) (dailyPnL : Rat) (side : Action) (quantity price : Rat)
      (pm : PortfolioManager),
      (assessTradeRisk limits dailyPnL side quantity price pm).allowed = true →
      (assessTradeRisk limits dailyPnL side quantity price pm).recommendedSize = none := by
  intro limits dailyPnL side quantity price pm h
  simp only [assessTradeRisk] at h ⊢
  by_cases c1 : dailyPnL ≤ -(getTotalValue pm * (limits.maxDailyLoss / 100))
  · rw [if_pos c1] at h
    exact absurd h (by simp)
  · rw [if_neg c1] at h ⊢
    by_cases c2 : limits.maxPositionSize < quantity * price / getTotalValue pm * 100
    · rw [if_pos c2] at h
      exact absurd h (by simp)
    · rw [if_neg c2]
      split
      · rfl
      · split <;> rfl

/-- C10: every trade that `executeSignal` carries to a fill has quantity equal
to the candidate size from `calculatePositionSize`, i.e. (availableBalance ×
0.10) × (0.5 + confidence × 0.5) / price: an approved assessment never carries
`recommendedSize`, so the `recommendedSize || positionSize` fallback always
resolves to the candidate size. -/
theorem C10_fill_quantity_is_candidate_size :
    ∀ (limits : RiskLimits) (dailyPnL : Rat) (pm : PortfolioManager)
      (signal : TradingSignal) (symbol : String) (price : Rat) (newId : String)
      (isDryRun : Bool) (r : Except String Order) (t : Trade),
      (executeSignal limits dailyPnL pm signal symbol price newId isDryRun r).1.trade =
        some t →
      t.quantity = calculatePositionSize pm signal price ∧
        calculatePositionSize pm signal price =
          ((pm.availableBalance * (1 / 10)) * (1 / 2 + signal.confidence * (1 / 2))) / price := by
  intro limits dailyPnL pm signal symbol price newId isDryRun r t h
  refine ⟨?_, rfl⟩
  by_cases hact : signal.action = Action.HOLD
  · rw [executeSignal, if_pos hact] at h
    exact absurd h (by simp)
  · simp only [executeSignal, if_neg hact] at h
    by_cases hall : (assessTradeRisk limits dailyPnL signal.action
        (calculatePositionSize pm signal price) price pm).allowed = false
    · rw [if_pos hall] at h
      exact absurd h (by simp)
    · rw [if_neg hall] at h
      have htrue : (assessTradeRisk limits dailyPnL signal.action
          (calculatePositionSize pm signal price) price pm).allowed = true := by
        revert hall
        cases (assessTradeRisk limits dailyPnL signal.action
          (calculatePositionSize pm signal price) price pm).allowed <;> simp
      rw [assessTradeRisk_allowed_no_recommendation _ _ _ _ _ _ htrue] at h
      cases isDryRun with
      | true =>
          simp only [if_pos rfl, simulateTrade] at h
          have ht := Option.some.inj h
          rw [← ht]
      | false =>
          simp only [Bool.false_eq_true, if_false] at h
          cases r with
          | error e => exact absurd h (by simp [executeLiveTrade])
          | ok o =>
              by_cases hst : o.status = OrderStatus.FILLED
              · rw [executeLiveTrade, if_pos hst] at h
                have ht := Option.some.inj h
                rw [← ht]
              · rw [executeLiveTrade, if_neg hst] at h
                exact absurd h (by simp)

/-- C4: once the window holds at least `slowPeriod` samples (and the periods
are positive, the domain on which the rational model matches the JS
arithmetic), `addPriceData` returns BUY exactly when the last two fast/slow
SMA pairs cross up (previous fast ≤ previous slow and current fast > current
slow, both SMA series having at least two entries), SELL exactly on the
mirrored crossing-down, and otherwise HOLD with confidence 0. -/
theorem C4_sma_crossover_characterization :
    ∀ (s : SMACrossoverStrategy) (md : MarketData) (s1 : SMACrossoverStrategy),
      1 ≤ s.fastPeriod → 1 ≤ s.slowPeriod →
      s1 = { s with priceHistory := pushPrice s.priceHistory s.maxHistorySize md.price } →
      s1.slowPeriod ≤ s1.priceHistory.length →
      (((s.addPriceData md).2.action = Action.BUY ↔
          (2 ≤ (fastSMAof s1).length ∧ 2 ≤ (slowSMAof s1).length ∧
            previousFast s1 ≤ previousSlow s1 ∧ currentSlow s1 < currentFast s1)) ∧
        ((s.addPriceData md).2.action = Action.SELL ↔
          (2 ≤ (fastSMAof s1).length ∧ 2 ≤ (slowSMAof s1).length ∧
            previousSlow s1 ≤ previousFast s1 ∧ currentFast s1 < currentSlow s1)) ∧
        (¬ (previousFast s1 ≤ previousSlow s1 ∧ currentSlow s1 < currentFast s1) →
          ¬ (previousSlow s1 ≤ previousFast s1 ∧ currentFast s1 < currentSlow s1) →
          (s.addPriceData md).2 = ⟨Action.HOLD, 0, md.timestamp⟩)) := by
  intro s md s1 hf hs hs1 hlen
  have hstep : s.addPriceData md = s1.generateSignal md.timestamp := by
    rw [hs1] at hlen ⊢
    simp only [SMACrossoverStrategy.addPriceData]
    rw [if_neg (by simpa using not_lt.mpr hlen)]
  rw [hstep, SMACrossoverStrategy.generateSignal]
  by_cases hshort : (fastSMAof s1).length < 2 ∨ (slowSMAof s1).length < 2
  · rw [if_pos hshort]
    refine ⟨⟨fun h => Action.noConfusion h, fun ⟨ha, hb, _⟩ => by omega⟩,
      ⟨fun h => Action.noConfusion h, fun ⟨ha, hb, _⟩ => by omega⟩, fun _ _ => rfl⟩
  · rw [if_neg hshort]
    push_neg at hshort
    by_cases hbuy : previousFast s1 ≤ previousSlow s1 ∧ currentSlow s1 < currentFast s1
    · rw [if_pos hbuy]
      refine ⟨iff_of_true rfl ⟨hshort.1, hshort.2, hbuy.1, hbuy.2⟩,
        iff_of_false (fun h => Action.noConfusion h) ?_, fun hnb _ => absurd hbuy hnb⟩
      rintro ⟨-, -, -, hlt⟩
      exact absurd hlt (lt_asymm hbuy.2)
    · rw [if_neg hbuy]
      by_cases hsell : previousSlow s1 ≤ previousFast s1 ∧ currentFast s1 < currentSlow s1
      · rw [if_pos hsell]
        refine ⟨iff_of_false (fun h => Action.noConfusion h) ?_,
          iff_of_true rfl ⟨hshort.1, hshort.2, hsell.1, hsell.2⟩, fun _ hns => absurd hsell hns⟩
        rintro ⟨-, -, -, hlt⟩
        exact absurd hlt (lt_asymm hsell.2)
      · rw [if_neg hsell]
        exact ⟨iff_of_false (fun h => Action.noConfusion h) (fun ⟨_, _, h3, h4⟩ => hbuy ⟨h3, h4⟩),
          iff_of_false (fun h => Action.noConfusion h) (fun ⟨_, _, h3, h4⟩ => hsell ⟨h3, h4⟩),
          fun _ _ => rfl⟩

/-- C4 witness: fastPeriod 2, slowPeriod 3, window [1, 1, 1, 2] — the fast
SMA crosses above the slow SMA on the new sample, so the strategy emits BUY. -/
theorem C4_sma_crossover_characterization_witness :
    ((SMACrossoverStrategy.mk [1, 1, 1] 2 3 200).addPriceData ⟨2, 7⟩).2.action =
      Action.BUY :=
  ((C4_sma_crossover_characterization (SMACrossoverStrategy.mk [1, 1, 1] 2 3 200) ⟨2, 7⟩
      (SMACrossoverStrategy.mk [1, 1, 1, 2] 2 3 200) (by decide) (by decide) (by decide)
      (by decide)).1).mpr (by decide)

/-- C10 witness: an approved concrete BUY (balance 1000, confidence 1,
price 100) executes in dry-run mode with quantity 1 = (1000 × 0.10) × 1.0 / 100. -/
theorem C10_fill_quantity_is_candidate_size_witness :
    ((⟨"T1", "X", Action.BUY, 1, 100, 0, some (1 / 10)⟩ : Trade).quantity =
        calculatePositionSize (PortfolioManager.fresh 1000) ⟨Action.BUY, 1, 0⟩ 100) ∧
      calculatePositionSize (PortfolioManager.fresh 1000) ⟨Action.BUY, 1, 0⟩ 100 =
        (((PortfolioManager.fresh 1000).availableBalance * (1 / 10)) *
          (1 / 2 + (⟨Action.BUY, 1, 0⟩ : TradingSignal).confidence * (1 / 2))) / 100 :=
  C10_fill_quantity_is_candidate_size ⟨20, 5, 3, 6, 5⟩ 0 (PortfolioManager.fresh 1000)
    ⟨Action.BUY, 1, 0⟩ "X" 100 "T1" true (Except.error "unused")
    ⟨"T1", "X", Action.BUY, 1, 100, 0, some (1 / 10)⟩ (by decide)

/-- A call that emits BUY requires the latch not to have been BUY already. -/
theorem rsi_buy_needs_rearmed_latch (s : RSIStrategy) (md : MarketData) :
    ((s.addPriceData md).2).action = Action.BUY → s.lastSignal ≠ Action.BUY := by
  intro h
  simp only [RSIStrategy.addPriceData] at h
  split at h
  · exact absurd h (fun h2 => Action.noConfusion h2)
  · rw [RSIStrategy.generateSignal] at h
    split at h
    · exact absurd h (fun h2 => Action.noConfusion h2)
    · split at h
      next hc => exact hc.2.2
      next =>
        split at h
        · exact absurd h (fun h2 => Action.noConfusion h2)
        · split at h <;> exact absurd h (fun h2 => Action.noConfusion h2)

/-- A call that emits BUY sets the latch to BUY. -/
theorem rsi_buy_sets_latch (s : RSIStrategy) (md : MarketData) :
    ((s.addPriceData md).2).action = Action.BUY →
    ((s.addPriceData md).1).lastSignal = Action.BUY := by
  intro h
  rcases hap : s.addPriceData md with ⟨s2, sig⟩
  rw [hap] at h
  simp only [RSIStrategy.addPriceData] at hap
  split at hap
  · injection hap with h1 h2
    subst h2
    exact absurd h (fun h3 => Action.noConfusion h3)
  · rw [RSIStrategy.generateSignal] at hap
    split at hap
    · injection hap with h1 h2
      subst h2
      exact absurd h (fun h3 => Action.noConfusion h3)
    · split at hap
      · injection hap with h1 h2
        subst h1
        rfl
      · split at hap
        · injection hap with h1 h2
          subst h2
          exact absurd h (fun h3 => Action.noConfusion h3)
        · split at hap <;>
            (injection hap with h1 h2
             subst h2
             exact absurd h (fun h3 => Action.noConfusion h3))

/-- The latch can move away from BUY only when the call emits SELL or when the
current RSI (the post-state's `getCurrentRSI`) lies strictly inside the
neutral band. -/
theorem rsi_latch_leaves_buy (s : RSIStrategy) (md : MarketData) :
    s.lastSignal = Action.BUY →
    ((s.addPriceData md).1).lastSignal ≠ Action.BUY →
    ((s.addPriceData md).2).action = Action.SELL ∨
      (∃ r, getCurrentRSI ((s.addPriceData md).1) = some r ∧
        ((s.addPriceData md).1).oversoldLevel < r ∧
        r < ((s.addPriceData md).1).overboughtLevel) := by
  intro hpre hpost
  rcases hap : s.addPriceData md with ⟨s2, sig⟩
  rw [hap] at hpost
  simp only [RSIStrategy.addPriceData] at hap
  split at hap
  · injection hap with h1 h2
    subst h1
    exact absurd hpre hpost
  next hguard =>
    rw [RSIStrategy.generateSignal] at hap
    split at hap
    next hlen2 =>
      injection hap with h1 h2
      subst h1
      exact absurd hpre hpost
    next hlen2 =>
      split at hap
      next hc => exact absurd hpre hc.2.2
      next =>
        split at hap
        next hc =>
          injection hap with h1 h2
          subst h2
          left
          rfl
        next =>
          split at hap
          next hn =>
            injection hap with h1 h2
            subst h1
            right
            refine ⟨_, ?_, hn.1, hn.2⟩
            have hlenpos : 0 < (calculateRSI
                (pushPrice s.priceHistory s.maxHistorySize md.price) s.period).length := by
              simp only [rsiValuesOf] at hlen2
              omega
            simp [getCurrentRSI, rsiValuesOf, currentRSIof, hguard, hlenpos]
          next =>
            injection hap with h1 h2
            subst h1
            exact absurd hpre hpost

/-- The trace has one entry per market-data sample. -/
theorem traceRSI_length (s : RSIStrategy) (mds : List MarketData) :
    (traceRSI s mds).length = mds.length := by
  induction mds generalizing s with
  | nil => rfl
  | cons md rest ih => simp [traceRSI, ih]

/-- Once the latch is BUY, a later BUY in the trace is preceded (within the
trace) by a rearming step: a SELL emission or a neutral-band RSI. -/
theorem traceRSI_rearm (d : TradingSignal × RSIStrategy) :
    ∀ (mds : List MarketData) (s : RSIStrategy),
      s.lastSignal = Action.BUY →
      ∀ k, k < mds.length →
        ((traceRSI s mds).getD k d).1.action = Action.BUY →
        ∃ m, m < k ∧
          (((traceRSI s mds).getD m d).1.action = Action.SELL ∨
            ∃ r, getCurrentRSI ((traceRSI s mds).getD m d).2 = some r ∧
              ((traceRSI s mds).getD m d).2.oversoldLevel < r ∧
              r < ((traceRSI s mds).getD m d).2.overboughtLevel) := by
  intro mds
  induction mds with
  | nil => intro s hs k hk; simp at hk
  | cons md rest ih =>
      intro s hs k hk hbuy
      match k with
      | 0 =>
          rw [traceRSI] at hbuy
          rw [List.getD_cons_zero] at hbuy
          exact absurd hs (rsi_buy_needs_rearmed_latch s md hbuy)
      | Nat.succ k2 =>
          rw [traceRSI, List.getD_cons_succ] at hbuy
          by_cases hpost : ((s.addPriceData md).1).lastSignal = Action.BUY
          · obtain ⟨m, hm, hprop⟩ := ih (s.addPriceData md).1 hpost k2
              (by simpa using Nat.lt_of_succ_lt_succ hk) hbuy
            refine ⟨m + 1, by omega, ?_⟩
            rw [traceRSI, List.getD_cons_succ]
            exact hprop
          · have h3 := rsi_latch_leaves_buy s md hs hpost
            refine ⟨0, Nat.succ_pos _, ?_⟩
            rw [traceRSI, List.getD_cons_zero]
            exact h3

/-- C5 (amended): between any two BUY emissions in an RSI-Threshold run there
is a strictly intermediate call that rearms the latch — either a SELL
emission, or a sample whose RSI lies strictly inside the neutral band
(`oversoldLevel < RSI < overboughtLevel`).  (The original claim, requiring a
neutral-band sample in all cases, fails: a SELL also rearms the latch — see
the counterexample.) -/
theorem C5_buy_rearm_between (d : TradingSignal × RSIStrategy) :
    ∀ (mds : List MarketData) (s : RSIStrategy) (i j : Nat),
      i < j → j < mds.length →
      ((traceRSI s mds).getD i d).1.action = Action.BUY →
      ((traceRSI s mds).getD j d).1.action = Action.BUY →
      ∃ k, i < k ∧ k < j ∧
        (((traceRSI s mds).getD k d).1.action = Action.SELL ∨
          ∃ r, getCurrentRSI ((traceRSI s mds).getD k d).2 = some r ∧
            ((traceRSI s mds).getD k d).2.oversoldLevel < r ∧
            r < ((traceRSI s mds).getD k d).2.overboughtLevel) := by
  intro mds
  induction mds with
  | nil => intro s i j hij hj; simp at hj
  | cons md rest ih =>
      intro s i j hij hj hbi hbj
      match j, hij with
      | Nat.succ j2, _ =>
        match i with
        | 0 =>
            rw [traceRSI, List.getD_cons_zero] at hbi
            rw [traceRSI, List.getD_cons_succ] at hbj
            have hlatch := rsi_buy_sets_latch s md hbi
            obtain ⟨m, hm, hprop⟩ := traceRSI_rearm d rest (s.addPriceData md).1 hlatch j2
              (by simpa using Nat.lt_of_succ_lt_succ hj) hbj
            refine ⟨m + 1, by omega, by omega, ?_⟩
            rw [traceRSI, List.getD_cons_succ]
            exact hprop
        | Nat.succ i2 =>
            rw [traceRSI, List.getD_cons_succ] at hbi
            rw [traceRSI, List.getD_cons_succ] at hbj
            obtain ⟨k, hk1, hk2, hprop⟩ := ih (s.addPriceData md).1 i2 j2 (by omega)
              (by simpa using Nat.lt_of_succ_lt_succ hj) hbi hbj
            refine ⟨k + 1, by omega, by omega, ?_⟩
            rw [traceRSI, List.getD_cons_succ]
            exact hprop

/-- C5 (counterexample): with period 2 and levels 30/70, the price run
200, 201, 202, 192, 222, 122 emits BUY, SELL, BUY on the last three samples.
The only sample strictly between the two BUYs is the SELL sample, whose RSI
is 75 — not strictly inside the neutral band (30, 70) — so two BUYs occur
without an intervening neutral-zone reset. -/
theorem C5_two_buys_without_neutral_reset :
    (traceRSI (RSIStrategy.fresh 2 30 70)
        [⟨200, 0⟩, ⟨201, 1⟩, ⟨202, 2⟩, ⟨192, 3⟩, ⟨222, 4⟩, ⟨122, 5⟩]).map
        (fun r => r.1.action) =
      [Action.HOLD, Action.HOLD, Action.HOLD, Action.BUY, Action.SELL, Action.BUY] ∧
      getCurrentRSI ((traceRSI (RSIStrategy.fresh 2 30 70)
          [⟨200, 0⟩, ⟨201, 1⟩, ⟨202, 2⟩, ⟨192, 3⟩, ⟨222, 4⟩, ⟨122, 5⟩]).getD 4
          (⟨Action.HOLD, 0, 0⟩, RSIStrategy.fresh 2 30 70)).2 = some 75 ∧
      ¬ ((30 : Rat) < 75 ∧ (75 : Rat) < 70) := by
  refine ⟨by decide, by decide, by decide⟩

/-- C5 witness: the amended theorem applied to the counterexample run
(BUY at index 3 and index 5) produces the rearming step between them. -/
theorem C5_buy_rearm_between_witness :
    ∃ k, 3 < k ∧ k < 5 ∧
      (((traceRSI (RSIStrategy.fresh 2 30 70)
            [⟨200, 0⟩, ⟨201, 1⟩, ⟨202, 2⟩, ⟨192, 3⟩, ⟨222, 4⟩, ⟨122, 5⟩]).getD k
            (⟨Action.HOLD, 0, 0⟩, RSIStrategy.fresh 2 30 70)).1.action = Action.SELL ∨
        ∃ r, getCurrentRSI ((traceRSI (RSIStrategy.fresh 2 30 70)
            [⟨200, 0⟩, ⟨201, 1⟩, ⟨202, 2⟩, ⟨192, 3⟩, ⟨222, 4⟩, ⟨122, 5⟩]).getD k
            (⟨Action.HOLD, 0, 0⟩, RSIStrategy.fresh 2 30 70)).2 = some r ∧
          ((traceRSI (RSIStrategy.fresh 2 30 70)
            [⟨200, 0⟩, ⟨201, 1⟩, ⟨202, 2⟩, ⟨192, 3⟩, ⟨222, 4⟩, ⟨122, 5⟩]).getD k
            (⟨Action.HOLD, 0, 0⟩, RSIStrategy.fresh 2 30 70)).2.oversoldLevel < r ∧
          r < ((traceRSI (RSIStrategy.fresh 2 30 70)
            [⟨200, 0⟩, ⟨201, 1⟩, ⟨202, 2⟩, ⟨192, 3⟩, ⟨222, 4⟩, ⟨122, 5⟩]).getD k
            (⟨Action.HOLD, 0, 0⟩, RSIStrategy.fresh 2 30 70)).2.overboughtLevel) :=
  C5_buy_rearm_between (⟨Action.HOLD, 0, 0⟩, RSIStrategy.fresh 2 30 70)
    [⟨200, 0⟩, ⟨201, 1⟩, ⟨202, 2⟩, ⟨192, 3⟩, ⟨222, 4⟩, ⟨122, 5⟩]
    (RSIStrategy.fresh 2 30 70) 3 5 (by decide) (by decide) (by decide) (by decide)

end TB
